import Mathlib

/-!
Verification of the ETL pipeline (`src/etlpipeline.py`).

The pipeline reads a tabular file (csv / json / xlsx / xls), applies four
fixed cleanups (drop rows with missing cells, lowercase the column names,
stamp a timestamp column, synthesize a sequential id column when absent) and
writes the result to a destination file.

The shallow embedding below models:
  * a pandas `DataFrame` as an ordered list of column names together with a
    list of rows, each row a list of optional cells (`none` = NaN / null);
  * the `os.path` helpers used by the code (`splitext`, `dirname`,
    `abspath`, `normpath`, `join`) and `os.makedirs` over an explicit
    file-system state;
  * `ETLPipeline.extract`, `.transform`, `.load` and `.run`.

The wall-clock timestamp string produced by `datetime.now().strftime` is a
parameter `ts` of `transform`, and the current working directory used by
`os.path.abspath` is a parameter `cwd` of `load` / `run`.
-/

namespace ETL

/-- A loosely typed cell value, as produced by the pandas format readers. -/
inductive Value where
  | str (s : String)
  | num (n : Int)
  | boolVal (b : Bool)
deriving DecidableEq

deriving instance DecidableEq for Except

/-- A cell: `none` models a missing value (NaN / null). -/
abbrev Cell := Option Value

/-- In-memory model of a pandas `DataFrame`: ordered column names plus rows
of cells, row-major. -/
structure DataFrame where
  columns : List String
  rows : List (List Cell)
deriving DecidableEq

/-- Well-formedness: every row has exactly one cell per column. -/
def WF (df : DataFrame) : Prop := ∀ r ∈ df.rows, r.length = df.columns.length

instance decWF (df : DataFrame) : Decidable (WF df) :=
  inferInstanceAs (Decidable (∀ r ∈ df.rows, r.length = df.columns.length))

/-- Model of Python `str.lower` restricted to ASCII, applied characterwise.
`Char.toLower` is exactly the ASCII rule `A..Z ↦ a..z` used by the code's
`col.lower()` and `ext.lower()` calls on ASCII data. -/
def pyLower (s : String) : String := ⟨s.data.map Char.toLower⟩

theorem toNat_ofNat_small (n : Nat) (h : n < 0xd800) : (Char.ofNat n).toNat = n := by
  have hv : Nat.isValidChar n := Or.inl h
  rw [Char.ofNat, dif_pos hv]
  rfl

theorem toLower_idem (c : Char) : c.toLower.toLower = c.toLower := by
  unfold Char.toLower
  by_cases h : c.toNat ≥ 65 ∧ c.toNat ≤ 90
  · rw [if_pos h]
    have ht : (Char.ofNat (c.toNat + 32)).toNat = c.toNat + 32 :=
      toNat_ofNat_small _ (by omega)
    rw [ht, if_neg (by omega)]
  · rw [if_neg h, if_neg h]

theorem pyLower_idem (s : String) : pyLower (pyLower s) = pyLower s := by
  unfold pyLower
  refine congrArg String.mk ?_
  show (s.data.map Char.toLower).map Char.toLower = s.data.map Char.toLower
  rw [List.map_map]
  exact List.map_congr_left fun c _ => toLower_idem c

/-- Model of POSIX `os.path.splitext`: splits `p` into root and extension.
The extension starts at the last dot of the final path component, provided
some character of that component strictly before the dot is not itself a
dot (so dotfiles such as `.bashrc` have no extension). -/
def splitext (p : String) : String × String :=
  let l := p.data
  let base := (l.reverse.takeWhile (fun c => c ≠ '/')).reverse
  let afterDotRev := base.reverse.takeWhile (fun c => c ≠ '.')
  if afterDotRev.length = base.length then (p, "")
  else
    let stem := base.take (base.length - afterDotRev.length - 1)
    if stem.any (fun c => c ≠ '.') then
      (⟨l.take (l.length - afterDotRev.length - 1)⟩, ⟨'.' :: afterDotRev.reverse⟩)
    else (p, "")

/-- Model of POSIX `os.path.dirname`: everything up to the last `/`, with
trailing slashes stripped unless the head is all slashes. -/
def dirname (p : String) : String :=
  let l := p.data
  let tailLen := (l.reverse.takeWhile (fun c => c ≠ '/')).length
  let head := l.take (l.length - tailLen)
  if head.isEmpty ∨ head.all (fun c => c = '/') then ⟨head⟩
  else ⟨(head.reverse.dropWhile (fun c => c = '/')).reverse⟩

/-- Characterwise split on a separator: Python `str.split(sep)` for a
one-character separator. -/
def splitChar (sep : Char) : List Char → List (List Char)
  | [] => [[]]
  | c :: rest =>
    match splitChar sep rest with
    | [] => [[c]]
    | h :: t => if c = sep then [] :: h :: t else (c :: h) :: t

/-- Model of POSIX `os.path.normpath`: collapse separators, drop `.`
components, resolve `..` components, keeping Python's special case of
exactly two leading slashes. -/
def normpath (p : String) : String :=
  if p = "" then "."
  else
    let l := p.data
    let lead := (l.takeWhile (fun c => c = '/')).length
    let slashes : Nat := if lead = 2 then 2 else if 1 ≤ lead then 1 else 0
    let comps := splitChar '/' l
    let newComps := comps.foldl
      (fun acc comp =>
        if comp = [] ∨ comp = ['.'] then acc
        else if comp ≠ ['.', '.'] ∨ (slashes = 0 ∧ acc = []) ∨ acc.getLast? = some ['.', '.'] then
          acc ++ [comp]
        else acc.dropLast)
      []
    let res : String := ⟨List.replicate slashes '/' ++ (newComps.intersperse ['/']).flatten⟩
    if res = "" then "." else res

/-- Model of two-argument POSIX `os.path.join`. -/
def joinPath (a b : String) : String :=
  if b.data.head? = some '/' then b
  else if a = "" ∨ a.data.getLast? = some '/' then a ++ b
  else a ++ "/" ++ b

/-- Model of `os.path.abspath`, with the process working directory `cwd`
made explicit. -/
def abspath (cwd p : String) : String :=
  if p.data.head? = some '/' then normpath p else normpath (joinPath cwd p)

/-- Fuel-driven helper for `ancestors`; `dirname` strictly shortens a path
until it reaches a fixpoint, so `p.length` steps of fuel always suffice. -/
def ancestorsAux : Nat → String → List String
  | 0, p => [p]
  | fuel + 1, p =>
    if (dirname p).length < p.length then p :: ancestorsAux fuel (dirname p) else [p]

/-- The directory `p` together with all its ancestors under `dirname`:
the set of directories `os.makedirs(p, exist_ok=True)` ensures exist. -/
def ancestors (p : String) : List String := ancestorsAux p.length p

/-- Model of `os.makedirs(p, exist_ok=True)` acting on the directory set. -/
def makedirs (p : String) (dirs : List String) : List String :=
  ancestors p ++ dirs

/-- A row has no missing value: every cell is present (pandas `notna`). -/
def rowComplete (r : List Cell) : Bool := r.all fun c => c.isSome

/-- Step 1 of `transform`: `data = data.dropna()` — remove every row that
contains a missing cell. -/
def dropna (df : DataFrame) : DataFrame :=
  ⟨df.columns, df.rows.filter rowComplete⟩

/-- Step 2 of `transform`:
`data.columns = [col.lower() for col in data.columns]`. -/
def lowercaseColumns (df : DataFrame) : DataFrame :=
  ⟨df.columns.map pyLower, df.rows⟩

/-- Pandas column assignment `data[name] = v` with a scalar `v`: if a column
called `name` exists the cells under every such column are overwritten in
place, otherwise a new column is appended on the right. -/
def setColumn (df : DataFrame) (name : String) (v : Cell) : DataFrame :=
  if name ∈ df.columns then
    ⟨df.columns,
     df.rows.map fun r => List.zipWith (fun c x => if c = name then v else x) df.columns r⟩
  else
    ⟨df.columns ++ [name], df.rows.map fun r => r ++ [v]⟩

/-- Step 3 of `transform`:
`data['etl_timestamp'] = datetime.now().strftime('%Y-%m-%d %H:%M:%S')`,
with the formatted wall-clock string passed in as `ts`. -/
def addTimestamp (ts : String) (df : DataFrame) : DataFrame :=
  setColumn df "etl_timestamp" (some (Value.str ts))

/-- Step 4 of `transform`: `if 'id' not in data.columns: data['id'] =
range(1, len(data) + 1)` — append a sequential integer id column when no
column is called `id`. -/
def addIdIfAbsent (df : DataFrame) : DataFrame :=
  if "id" ∈ df.columns then df
  else
    ⟨df.columns ++ ["id"],
     df.rows.mapIdx fun i r => r ++ [some (Value.num (Int.ofNat i + 1))]⟩

/-- The method `ETLPipeline.transform`: the four cleanup steps in their fixed order. -/
def transform (ts : String) (df : DataFrame) : DataFrame :=
  addIdIfAbsent (addTimestamp ts (lowercaseColumns (dropna df)))

/-- Index of the first column called `name` (the length of the list when no
column matches). -/
def colIdx (name : String) : List String → Nat
  | [] => 0
  | c :: rest => if c = name then 0 else colIdx name rest + 1

/-- The values stored under the first column called `name` (pandas column
selection by label), top to bottom; `none` per row when no such column. -/
def colValues (df : DataFrame) (name : String) : List Cell :=
  df.rows.map fun r => r.getD (colIdx name df.columns) (none : Cell)

/-- Errors raised by the pipeline steps: `ValueError` for an unsupported
extension, read failures caught during extraction, write failures caught
during loading. -/
inductive PError where
  | unsupportedFormat (ext : String)
  | extractionErr
  | loadErr
deriving DecidableEq

/-- The file-system state the pipeline touches: the tabular files (path ↦
parsed content) and the set of existing directories. -/
structure FS where
  files : List (String × DataFrame)
  dirs : List String
deriving DecidableEq

/-- Model of `pd.read_csv`: return the table stored at `path`, failing when the file
is missing. -/
def read_csv (path : String) (fs : FS) : Except PError DataFrame :=
  match fs.files.lookup path with
  | some d => .ok d
  | none => .error .extractionErr

/-- Model of `pd.read_json` (records orientation), modelled like `read_csv`. -/
def read_json (path : String) (fs : FS) : Except PError DataFrame :=
  match fs.files.lookup path with
  | some d => .ok d
  | none => .error .extractionErr

/-- Model of `pd.read_excel`, shared by the `.xlsx` and `.xls` branches. -/
def read_excel (path : String) (fs : FS) : Except PError DataFrame :=
  match fs.files.lookup path with
  | some d => .ok d
  | none => .error .extractionErr

/-- The method `ETLPipeline.extract`: dispatch on the lower-cased extension of the
source path, raising `ValueError` (unsupported format) when it is none of
`.csv`, `.json`, `.xlsx`, `.xls`. -/
def extract (src : String) (fs : FS) : Except PError DataFrame :=
  let ext := pyLower (splitext src).2
  if ext = ".csv" then read_csv src fs
  else if ext = ".json" then read_json src fs
  else if ext ∈ [".xlsx", ".xls"] then read_excel src fs
  else .error (.unsupportedFormat ext)

/-- Model of `DataFrame.to_csv(path, index=False)`: record the table under `path`. -/
def to_csv (df : DataFrame) (path : String) (files : List (String × DataFrame)) :
    List (String × DataFrame) :=
  (path, df) :: files

/-- Model of `DataFrame.to_json(path, orient='records')`. -/
def to_json (df : DataFrame) (path : String) (files : List (String × DataFrame)) :
    List (String × DataFrame) :=
  (path, df) :: files

/-- Model of `DataFrame.to_excel(path, index=False)`. -/
def to_excel (df : DataFrame) (path : String) (files : List (String × DataFrame)) :
    List (String × DataFrame) :=
  (path, df) :: files

/-- The method `ETLPipeline.load`: compute the destination extension, create the
destination's parent directory (`os.makedirs(os.path.dirname(
os.path.abspath(dst)), exist_ok=True)`), then dispatch the writer on the
extension, raising `ValueError` when it is unsupported. Returns the
exception-or-`True` outcome together with the file-system state after the
call, so side effects that precede an exception are kept. -/
def load (df : DataFrame) (dst cwd : String) (fs : FS) : Except PError Bool × FS :=
  let ext := pyLower (splitext dst).2
  let fs1 : FS := ⟨fs.files, makedirs (dirname (abspath cwd dst)) fs.dirs⟩
  if ext = ".csv" then (.ok true, ⟨to_csv df dst fs1.files, fs1.dirs⟩)
  else if ext = ".json" then (.ok true, ⟨to_json df dst fs1.files, fs1.dirs⟩)
  else if ext ∈ [".xlsx", ".xls"] then (.ok true, ⟨to_excel df dst fs1.files, fs1.dirs⟩)
  else (.error (.unsupportedFormat ext), fs1)

/-- The method `ETLPipeline.run`: extract, then transform, then load, inside one
`try/except` that converts any step's exception into `False`. -/
def run (src dst cwd ts : String) (fs : FS) : Bool × FS :=
  match extract src fs with
  | .error _ => (false, fs)
  | .ok rawData =>
    let transformedData := transform ts rawData
    match load transformedData dst cwd fs with
    | (.ok _, fs1) => (true, fs1)
    | (.error _, fs1) => (false, fs1)

/-! ### Supporting lemmas -/

theorem colIdx_lt_length {name : String} {l : List String} (h : name ∈ l) :
    colIdx name l < l.length := by
  induction l with
  | nil => cases h
  | cons c rest ih =>
    by_cases hc : c = name
    · simp [colIdx, hc]
    · have : name ∈ rest := by
        rcases List.mem_cons.mp h with h1 | h1
        · exact absurd h1.symm hc
        · exact h1
      simp only [colIdx, if_neg hc, List.length_cons]
      exact Nat.succ_lt_succ (ih this)

theorem getElem?_colIdx {name : String} {l : List String} (h : name ∈ l) :
    l[colIdx name l]? = some name := by
  induction l with
  | nil => cases h
  | cons c rest ih =>
    by_cases hc : c = name
    · simp [colIdx, hc]
    · have : name ∈ rest := by
        rcases List.mem_cons.mp h with h1 | h1
        · exact absurd h1.symm hc
        · exact h1
      simp only [colIdx, if_neg hc]
      simpa using ih this

theorem colIdx_append_of_mem {name : String} {l1 : List String} (l2 : List String)
    (h : name ∈ l1) : colIdx name (l1 ++ l2) = colIdx name l1 := by
  induction l1 with
  | nil => cases h
  | cons c rest ih =>
    by_cases hc : c = name
    · simp [colIdx, hc]
    · have : name ∈ rest := by
        rcases List.mem_cons.mp h with h1 | h1
        · exact absurd h1.symm hc
        · exact h1
      simp [colIdx, if_neg hc, ih this]

theorem colIdx_append_of_not_mem {name : String} {l1 : List String} (l2 : List String)
    (h : name ∉ l1) : colIdx name (l1 ++ l2) = l1.length + colIdx name l2 := by
  induction l1 with
  | nil => simp
  | cons c rest ih =>
    have hc : c ≠ name := fun he => h (he ▸ List.mem_cons_self c rest)
    have hr : name ∉ rest := fun hm => h (List.mem_cons_of_mem c hm)
    simp only [List.cons_append, colIdx, if_neg hc, List.length_cons, List.append_eq]
    rw [ih hr]
    omega

theorem rowComplete_append_some (r : List Cell) (v : Value) :
    rowComplete (r ++ [some v]) = rowComplete r := by
  simp [rowComplete, List.all_append]

theorem rowComplete_zipWith (cols : List String) (r : List Cell) (name : String) (v : Cell)
    (hv : v.isSome = true) (hr : rowComplete r = true) :
    rowComplete (List.zipWith (fun c x => if c = name then v else x) cols r) = true := by
  induction cols generalizing r with
  | nil => simp [rowComplete]
  | cons c cs ih =>
    cases r with
    | nil => simp [rowComplete]
    | cons x xs =>
      simp only [rowComplete, List.all_cons, Bool.and_eq_true] at hr
      simp only [List.zipWith_cons_cons, rowComplete, List.all_cons, Bool.and_eq_true]
      refine ⟨?_, ih xs hr.2⟩
      by_cases hc : c = name
      · simpa [hc] using hv
      · simpa [hc] using hr.1

theorem WF_dropna {df : DataFrame} (h : WF df) : WF (dropna df) := by
  intro r hr
  exact h r (List.mem_filter.mp hr).1

theorem WF_lowercaseColumns {df : DataFrame} (h : WF df) : WF (lowercaseColumns df) := by
  intro r hr
  simp only [lowercaseColumns] at hr ⊢
  simpa using h r hr

theorem setColumn_columns (df : DataFrame) (name : String) (v : Cell) :
    (setColumn df name v).columns =
      if name ∈ df.columns then df.columns else df.columns ++ [name] := by
  unfold setColumn
  split <;> rfl

theorem setColumn_rows_pos {df : DataFrame} {name : String} (v : Cell)
    (h : name ∈ df.columns) :
    (setColumn df name v).rows =
      df.rows.map fun r => List.zipWith (fun c x => if c = name then v else x) df.columns r := by
  unfold setColumn
  rw [if_pos h]

theorem setColumn_rows_neg {df : DataFrame} {name : String} (v : Cell)
    (h : name ∉ df.columns) :
    (setColumn df name v).rows = df.rows.map fun r => r ++ [v] := by
  unfold setColumn
  rw [if_neg h]

theorem WF_setColumn {df : DataFrame} (name : String) (v : Cell) (h : WF df) :
    WF (setColumn df name v) := by
  by_cases hm : name ∈ df.columns
  · intro r hr
    rw [setColumn_rows_pos v hm] at hr
    rw [setColumn_columns, if_pos hm]
    rcases List.mem_map.mp hr with ⟨r0, hr0, rfl⟩
    rw [List.length_zipWith, h r0 hr0]
    simp
  · intro r hr
    rw [setColumn_rows_neg v hm] at hr
    rw [setColumn_columns, if_neg hm]
    rcases List.mem_map.mp hr with ⟨r0, hr0, rfl⟩
    simp [h r0 hr0]

theorem addId_eq_pos {df : DataFrame} (h : "id" ∈ df.columns) :
    addIdIfAbsent df = df := by
  unfold addIdIfAbsent
  rw [if_pos h]

theorem addId_eq_neg {df : DataFrame} (h : "id" ∉ df.columns) :
    addIdIfAbsent df =
      ⟨df.columns ++ ["id"],
       df.rows.mapIdx fun i r => r ++ [some (Value.num (Int.ofNat i + 1))]⟩ := by
  unfold addIdIfAbsent
  rw [if_neg h]

theorem WF_addIdIfAbsent {df : DataFrame} (h : WF df) : WF (addIdIfAbsent df) := by
  by_cases hm : "id" ∈ df.columns
  · rw [addId_eq_pos hm]; exact h
  · rw [addId_eq_neg hm]
    intro r hr
    rcases List.mem_mapIdx.mp hr with ⟨i, hi, heq⟩
    rw [← heq]
    have := h _ (List.getElem_mem hi)
    simp [this]

theorem dropna_rows_complete (df : DataFrame) :
    ∀ r ∈ (dropna df).rows, rowComplete r = true :=
  fun _ hr => (List.mem_filter.mp hr).2

theorem setColumn_rows_complete {df : DataFrame} {name : String} {v : Cell}
    (hv : v.isSome = true) (h : ∀ r ∈ df.rows, rowComplete r = true) :
    ∀ r ∈ (setColumn df name v).rows, rowComplete r = true := by
  by_cases hm : name ∈ df.columns
  · intro r hr
    rw [setColumn_rows_pos v hm] at hr
    rcases List.mem_map.mp hr with ⟨r0, hr0, rfl⟩
    exact rowComplete_zipWith _ _ _ _ hv (h r0 hr0)
  · intro r hr
    rw [setColumn_rows_neg v hm] at hr
    rcases List.mem_map.mp hr with ⟨r0, hr0, rfl⟩
    rcases Option.isSome_iff_exists.mp hv with ⟨w, rfl⟩
    rw [rowComplete_append_some]
    exact h r0 hr0

theorem addId_rows_complete {df : DataFrame} (h : ∀ r ∈ df.rows, rowComplete r = true) :
    ∀ r ∈ (addIdIfAbsent df).rows, rowComplete r = true := by
  by_cases hm : "id" ∈ df.columns
  · rw [addId_eq_pos hm]; exact h
  · rw [addId_eq_neg hm]
    intro r hr
    rcases List.mem_mapIdx.mp hr with ⟨i, hi, heq⟩
    rw [← heq, rowComplete_append_some]
    exact h _ (List.getElem_mem hi)

theorem mem_setColumn_columns {df : DataFrame} {c : String} (name : String) (v : Cell)
    (h : c ∈ df.columns) : c ∈ (setColumn df name v).columns := by
  rw [setColumn_columns]
  split
  · exact h
  · exact List.mem_append_left _ h

theorem setColumn_mem_columns_self (df : DataFrame) (name : String) (v : Cell) :
    name ∈ (setColumn df name v).columns := by
  rw [setColumn_columns]
  split
  · assumption
  · exact List.mem_append_right _ (List.mem_singleton.mpr rfl)

theorem setColumn_get {df : DataFrame} {name : String} {v : Cell} (hwf : WF df) :
    ∀ r ∈ (setColumn df name v).rows, ∀ j : Nat,
      (setColumn df name v).columns[j]? = some name → r[j]? = some v := by
  by_cases hm : name ∈ df.columns
  · intro r hr j hj
    rw [setColumn_rows_pos v hm] at hr
    rw [setColumn_columns, if_pos hm] at hj
    rcases List.mem_map.mp hr with ⟨r0, hr0, rfl⟩
    rcases List.getElem?_eq_some.mp hj with ⟨hlt, hcol⟩
    have hr0len : r0.length = df.columns.length := hwf r0 hr0
    have hjr : j < r0.length := by omega
    rw [List.getElem?_zipWith, List.getElem?_eq_getElem hlt, List.getElem?_eq_getElem hjr]
    simp [hcol]
  · intro r hr j hj
    rw [setColumn_rows_neg v hm] at hr
    rw [setColumn_columns, if_neg hm] at hj
    rcases List.mem_map.mp hr with ⟨r0, hr0, rfl⟩
    have hr0len : r0.length = df.columns.length := hwf r0 hr0
    have hlt : j < df.columns.length + 1 := by
      rcases List.getElem?_eq_some.mp hj with ⟨hlt, _⟩
      simpa using hlt
    by_cases hjl : j < df.columns.length
    · exfalso
      rw [List.getElem?_append, if_pos hjl] at hj
      rcases List.getElem?_eq_some.mp hj with ⟨h1, h2⟩
      exact hm (h2 ▸ List.getElem_mem h1)
    · have hj_eq : j = df.columns.length := by omega
      subst hj_eq
      rw [← hr0len, List.getElem?_concat_length]

theorem colValues_setColumn_other {df : DataFrame} {name other : String} (v : Cell)
    (hwf : WF df) (hmem : other ∈ df.columns) (hne : other ≠ name) :
    colValues (setColumn df name v) other = colValues df other := by
  have hidx : colIdx other df.columns < df.columns.length := colIdx_lt_length hmem
  have hcol : df.columns[colIdx other df.columns]? = some other := getElem?_colIdx hmem
  by_cases hm : name ∈ df.columns
  · unfold colValues
    rw [setColumn_columns, if_pos hm, setColumn_rows_pos v hm, List.map_map]
    refine List.map_congr_left fun r0 hr0 => ?_
    have hr0len : r0.length = df.columns.length := hwf r0 hr0
    have hjr : colIdx other df.columns < r0.length := by omega
    simp only [Function.comp]
    rw [List.getD_eq_getElem?_getD, List.getD_eq_getElem?_getD]
    rw [List.getElem?_zipWith, List.getElem?_eq_getElem hidx, List.getElem?_eq_getElem hjr]
    have : df.columns[colIdx other df.columns] = other := by
      rw [List.getElem?_eq_getElem hidx] at hcol
      exact Option.some_injective _ hcol
    rw [this]
    simp [hne]
  · unfold colValues
    rw [setColumn_columns, if_neg hm, setColumn_rows_neg v hm, List.map_map]
    rw [colIdx_append_of_mem _ hmem]
    refine List.map_congr_left fun r0 hr0 => ?_
    have hr0len : r0.length = df.columns.length := hwf r0 hr0
    have hjr : colIdx other df.columns < r0.length := by omega
    simp only [Function.comp]
    rw [List.getD_eq_getElem?_getD, List.getD_eq_getElem?_getD]
    rw [List.getElem?_append, if_pos hjr]

theorem setColumn_columns_cases {df : DataFrame} {name : String} {v : Cell} {c : String}
    (h : c ∈ (setColumn df name v).columns) : c ∈ df.columns ∨ c = name := by
  rw [setColumn_columns] at h
  split at h
  · exact Or.inl h
  · rcases List.mem_append.mp h with h1 | h1
    · exact Or.inl h1
    · exact Or.inr (List.mem_singleton.mp h1)

theorem addId_columns_cases {df : DataFrame} {c : String}
    (h : c ∈ (addIdIfAbsent df).columns) : c ∈ df.columns ∨ c = "id" := by
  by_cases hm : "id" ∈ df.columns
  · rw [addId_eq_pos hm] at h
    exact Or.inl h
  · rw [addId_eq_neg hm] at h
    rcases List.mem_append.mp h with h1 | h1
    · exact Or.inl h1
    · exact Or.inr (List.mem_singleton.mp h1)

theorem addId_columns_mono {df : DataFrame} {c : String} (h : c ∈ df.columns) :
    c ∈ (addIdIfAbsent df).columns := by
  by_cases hm : "id" ∈ df.columns
  · rw [addId_eq_pos hm]; exact h
  · rw [addId_eq_neg hm]; exact List.mem_append_left _ h

theorem addId_rows_agree {df : DataFrame} (hwf : WF df) :
    ∀ r ∈ (addIdIfAbsent df).rows, ∃ r0 ∈ df.rows, ∀ j < df.columns.length, r[j]? = r0[j]? := by
  by_cases hm : "id" ∈ df.columns
  · rw [addId_eq_pos hm]
    exact fun r hr => ⟨r, hr, fun _ _ => rfl⟩
  · rw [addId_eq_neg hm]
    intro r hr
    rcases List.mem_mapIdx.mp hr with ⟨i, hi, heq⟩
    refine ⟨df.rows[i], List.getElem_mem hi, fun j hj => ?_⟩
    rw [← heq]
    have hlen : j < (df.rows[i]).length := by
      rw [hwf _ (List.getElem_mem hi)]
      exact hj
    rw [List.getElem?_append, if_pos hlen]

theorem addId_columns_getElem? {df : DataFrame} {j : Nat} {c : String}
    (hc : (addIdIfAbsent df).columns[j]? = some c) (hne : c ≠ "id") :
    j < df.columns.length ∧ df.columns[j]? = some c := by
  by_cases hm : "id" ∈ df.columns
  · rw [addId_eq_pos hm] at hc
    rcases List.getElem?_eq_some.mp hc with ⟨h1, _⟩
    exact ⟨h1, hc⟩
  · rw [addId_eq_neg hm] at hc
    by_cases hj : j < df.columns.length
    · rw [List.getElem?_append, if_pos hj] at hc
      exact ⟨hj, hc⟩
    · exfalso
      have hlt : j < df.columns.length + 1 := by
        rcases List.getElem?_eq_some.mp hc with ⟨h1, _⟩
        simpa using h1
      have hj_eq : j = df.columns.length := by omega
      subst hj_eq
      rw [List.getElem?_concat_length] at hc
      exact hne (Option.some_injective _ hc).symm

/-- Running example from the spec: two named columns, one row with a
missing `Age` cell. -/
def sampleDf : DataFrame :=
  ⟨["Name", "Age"],
   [[some (Value.str "John"), some (Value.num 28)],
    [some (Value.str "Jane"), none]]⟩

/-- C1: for every input dataset, the dataset returned by `transform`
contains no row with a missing cell in any column, every column name is
lowercase (a fixpoint of `pyLower`), and every position of the timestamp
column holds the one timestamp value in every row. -/
theorem transform_output_clean (ts : String) (df : DataFrame) (hwf : WF df) :
    (∀ r ∈ (transform ts df).rows, rowComplete r = true) ∧
    (∀ c ∈ (transform ts df).columns, pyLower c = c) ∧
    "etl_timestamp" ∈ (transform ts df).columns ∧
    (∀ r ∈ (transform ts df).rows, ∀ j : Nat,
      (transform ts df).columns[j]? = some "etl_timestamp" →
        r[j]? = some (some (Value.str ts))) := by
  have hwf1 : WF (dropna df) := WF_dropna hwf
  have hwf2 : WF (lowercaseColumns (dropna df)) := WF_lowercaseColumns hwf1
  have hwf3 : WF (addTimestamp ts (lowercaseColumns (dropna df))) :=
    WF_setColumn _ _ hwf2
  refine ⟨?_, ?_, ?_, ?_⟩
  · unfold transform
    apply addId_rows_complete
    unfold addTimestamp
    refine setColumn_rows_complete ?_ ?_
    · rfl
    · intro r hr
      exact dropna_rows_complete df r hr
  · intro c hc
    unfold transform at hc
    rcases addId_columns_cases hc with h1 | h1
    · rcases setColumn_columns_cases h1 with h2 | h2
      · rcases List.mem_map.mp h2 with ⟨c0, _, rfl⟩
        exact pyLower_idem c0
      · rw [h2]; decide
    · rw [h1]; decide
  · unfold transform
    exact addId_columns_mono (setColumn_mem_columns_self _ _ _)
  · intro r hr j hj
    unfold transform at hr hj
    rcases addId_rows_agree hwf3 r hr with ⟨r0, hr0, hag⟩
    have hne : ("etl_timestamp" : String) ≠ "id" := by decide
    rcases addId_columns_getElem? hj hne with ⟨hjlt, hcol⟩
    rw [hag j hjlt]
    exact setColumn_get hwf2 r0 hr0 j hcol

/-- Witness for C1 at the spec's running example. -/
theorem transform_output_clean_witness :
    (∀ r ∈ (transform "2024-01-01 00:00:00" sampleDf).rows, rowComplete r = true) ∧
    (∀ c ∈ (transform "2024-01-01 00:00:00" sampleDf).columns, pyLower c = c) ∧
    "etl_timestamp" ∈ (transform "2024-01-01 00:00:00" sampleDf).columns ∧
    (∀ r ∈ (transform "2024-01-01 00:00:00" sampleDf).rows, ∀ j : Nat,
      (transform "2024-01-01 00:00:00" sampleDf).columns[j]? = some "etl_timestamp" →
        r[j]? = some (some (Value.str "2024-01-01 00:00:00"))) :=
  transform_output_clean "2024-01-01 00:00:00" sampleDf (by decide)

theorem addId_colValues_fresh {df : DataFrame} (hwf : WF df) (hm : "id" ∉ df.columns) :
    colValues (addIdIfAbsent df) "id" =
      (List.range df.rows.length).map fun i => some (Value.num (Int.ofNat i + 1)) := by
  rw [addId_eq_neg hm]
  unfold colValues
  have hidx : colIdx "id" (df.columns ++ ["id"]) = df.columns.length := by
    rw [colIdx_append_of_not_mem _ hm]
    simp [colIdx]
  refine List.ext_getElem? fun i => ?_
  rw [List.getElem?_map, List.getElem?_mapIdx, List.getElem?_map]
  by_cases hi : i < df.rows.length
  · rw [List.getElem?_eq_getElem hi, List.getElem?_range hi]
    simp only [Option.map_some']
    congr 1
    rw [hidx, List.getD_eq_getElem?_getD]
    have hlen : (df.rows[i]).length = df.columns.length := hwf _ (List.getElem_mem hi)
    rw [← hlen, List.getElem?_concat_length]
    rfl
  · rw [List.getElem?_eq_none (by simpa using hi), List.getElem?_eq_none (by simpa using hi)]
    rfl

theorem addTimestamp_length (ts : String) (df : DataFrame) :
    (addTimestamp ts df).rows.length = df.rows.length := by
  unfold addTimestamp
  by_cases hm : "etl_timestamp" ∈ df.columns
  · rw [setColumn_rows_pos _ hm, List.length_map]
  · rw [setColumn_rows_neg _ hm, List.length_map]

theorem transform_id_fresh_values (ts : String) (df : DataFrame) (hwf : WF df)
    (hid : "id" ∉ df.columns.map pyLower) :
    colValues (transform ts df) "id" =
      (List.range (df.rows.filter rowComplete).length).map
        fun i => some (Value.num (Int.ofNat i + 1)) := by
  unfold transform
  have hwf2 : WF (lowercaseColumns (dropna df)) := WF_lowercaseColumns (WF_dropna hwf)
  have hwf3 : WF (addTimestamp ts (lowercaseColumns (dropna df))) := WF_setColumn _ _ hwf2
  have hid3 : "id" ∉ (addTimestamp ts (lowercaseColumns (dropna df))).columns := by
    intro hmem
    rcases setColumn_columns_cases hmem with h1 | h1
    · exact hid h1
    · exact absurd h1 (by decide)
  rw [addId_colValues_fresh hwf3 hid3, addTimestamp_length]
  rfl

/-- C3: when the input has no column whose lowercased name is `id`, the
output's id column is exactly `1..N` in row order, `N` the number of rows
surviving null-row removal. -/
theorem transform_id_fresh (ts : String) (df : DataFrame) (hwf : WF df)
    (hid : "id" ∉ df.columns.map pyLower) :
    colValues (transform ts df) "id" =
      (List.range (df.rows.filter rowComplete).length).map
        fun i => some (Value.num (Int.ofNat i + 1)) :=
  transform_id_fresh_values ts df hwf hid

/-- Witness for C3 at the spec's running example. -/
theorem transform_id_fresh_witness :
    colValues (transform "2024-01-01 00:00:00" sampleDf) "id" =
      (List.range (sampleDf.rows.filter rowComplete).length).map
        fun i => some (Value.num (Int.ofNat i + 1)) :=
  transform_id_fresh "2024-01-01 00:00:00" sampleDf (by decide) (by decide)

/-- A dataset whose pre-existing id column contains duplicate values. -/
def dupIdDf : DataFrame := ⟨["id"], [[some (Value.num 1)], [some (Value.num 1)]]⟩

/-- C2 counterexample: on an input whose pre-existing `id` column holds the
duplicate values `1, 1`, the transformed dataset's id column is not
pairwise distinct, refuting the claim that the id values are unique whether
pre-existing or synthesized. -/
theorem transform_id_unique_cex :
    ¬ ((colValues (transform "2024-01-01 00:00:00" dupIdDf) "id").Pairwise
        fun a b => a ≠ b) := by
  decide

/-- C2 amended: the transformed dataset always contains an id column, and
its values are pairwise unique whenever the column was newly synthesized
(no case-insensitive `id` column in the input); a pre-existing id column is
carried over as-is and need not be unique. -/
theorem transform_id_unique_amended (ts : String) (df : DataFrame) (hwf : WF df) :
    "id" ∈ (transform ts df).columns ∧
    ("id" ∉ df.columns.map pyLower →
      (colValues (transform ts df) "id").Pairwise fun a b => a ≠ b) := by
  constructor
  · unfold transform
    by_cases hm : "id" ∈ (addTimestamp ts (lowercaseColumns (dropna df))).columns
    · rw [addId_eq_pos hm]; exact hm
    · rw [addId_eq_neg hm]
      exact List.mem_append_right _ (List.mem_singleton.mpr rfl)
  · intro hid
    rw [transform_id_fresh_values ts df hwf hid]
    refine List.Pairwise.map _ ?_ (List.pairwise_lt_range _)
    intro a b hab heq
    rw [Option.some.injEq, Value.num.injEq] at heq
    simp only [Int.ofNat_eq_coe] at heq
    omega

/-- Witness for the amended C2 at the spec's running example. -/
theorem transform_id_unique_amended_witness :
    "id" ∈ (transform "2024-01-01 00:00:00" sampleDf).columns ∧
    ("id" ∉ sampleDf.columns.map pyLower →
      (colValues (transform "2024-01-01 00:00:00" sampleDf) "id").Pairwise
        fun a b => a ≠ b) :=
  transform_id_unique_amended "2024-01-01 00:00:00" sampleDf (by decide)

/-- A dataset with a pre-existing (upper-cased) id column and one null row. -/
def idDf : DataFrame :=
  ⟨["ID", "Val"],
   [[some (Value.num 7), some (Value.str "a")],
    [some (Value.num 3), none],
    [some (Value.num 5), some (Value.str "b")]]⟩

/-- C4: when the input already has an id column (case-insensitively), the
output id column carries exactly the input's id values of the surviving
rows, in order — no renumbering or overwriting. -/
theorem transform_id_preserved (ts : String) (df : DataFrame) (hwf : WF df)
    (hid : "id" ∈ df.columns.map pyLower) :
    colValues (transform ts df) "id" =
      (df.rows.filter rowComplete).map
        fun r => r.getD (colIdx "id" (df.columns.map pyLower)) (none : Cell) := by
  unfold transform
  have hwf2 : WF (lowercaseColumns (dropna df)) := WF_lowercaseColumns (WF_dropna hwf)
  have hid2 : "id" ∈ (lowercaseColumns (dropna df)).columns := hid
  have h3 : "id" ∈ (addTimestamp ts (lowercaseColumns (dropna df))).columns :=
    mem_setColumn_columns _ _ hid2
  rw [addId_eq_pos h3]
  unfold addTimestamp
  rw [colValues_setColumn_other _ hwf2 hid2 (by decide)]
  rfl

/-- Witness for C4: the id values `7, 5` of the two complete rows survive
unchanged (the row with the null cell is dropped). -/
theorem transform_id_preserved_witness :
    colValues (transform "2024-01-01 00:00:00" idDf) "id" =
      (idDf.rows.filter rowComplete).map
        fun r => r.getD (colIdx "id" (idDf.columns.map pyLower)) (none : Cell) :=
  transform_id_preserved "2024-01-01 00:00:00" idDf (by decide) (by decide)

theorem transform_rows_length (ts : String) (df : DataFrame) :
    (transform ts df).rows.length = (df.rows.filter rowComplete).length := by
  unfold transform
  by_cases hm : "id" ∈ (addTimestamp ts (lowercaseColumns (dropna df))).columns
  · rw [addId_eq_pos hm, addTimestamp_length]
    rfl
  · rw [addId_eq_neg hm]
    simp only [List.length_mapIdx]
    rw [addTimestamp_length]
    rfl

theorem addId_rows_getElem? {df : DataFrame} (hwf : WF df) (i j : Nat)
    (hj : j < df.columns.length) :
    ((addIdIfAbsent df).rows[i]?.bind fun r => r[j]?) =
      (df.rows[i]?.bind fun r => r[j]?) := by
  by_cases hm : "id" ∈ df.columns
  · rw [addId_eq_pos hm]
  · rw [addId_eq_neg hm]
    simp only
    rw [List.getElem?_mapIdx]
    cases hcell : df.rows[i]? with
    | none => rfl
    | some r =>
      simp only [Option.map_some', Option.some_bind]
      have hmem : r ∈ df.rows := by
        rcases List.getElem?_eq_some.mp hcell with ⟨h1, h2⟩
        exact h2 ▸ List.getElem_mem h1
      have hlen : j < r.length := by rw [hwf r hmem]; exact hj
      rw [List.getElem?_append, if_pos hlen]

theorem setColumn_rows_getElem?_other {df : DataFrame} {name : String} {v : Cell}
    (hwf : WF df) (i j : Nat) (hj : j < df.columns.length)
    (hne : df.columns[j]? ≠ some name) :
    ((setColumn df name v).rows[i]?.bind fun r => r[j]?) =
      (df.rows[i]?.bind fun r => r[j]?) := by
  by_cases hm : name ∈ df.columns
  · rw [setColumn_rows_pos v hm, List.getElem?_map]
    cases hcell : df.rows[i]? with
    | none => rfl
    | some r =>
      simp only [Option.map_some', Option.some_bind]
      have hmem : r ∈ df.rows := by
        rcases List.getElem?_eq_some.mp hcell with ⟨h1, h2⟩
        exact h2 ▸ List.getElem_mem h1
      have hlen : j < r.length := by rw [hwf r hmem]; exact hj
      rw [List.getElem?_zipWith, List.getElem?_eq_getElem hj, List.getElem?_eq_getElem hlen]
      have hcne : df.columns[j] ≠ name := by
        intro he
        exact hne (by rw [List.getElem?_eq_getElem hj, he])
      simp [hcne]
  · rw [setColumn_rows_neg v hm, List.getElem?_map]
    cases hcell : df.rows[i]? with
    | none => rfl
    | some r =>
      simp only [Option.map_some', Option.some_bind]
      have hmem : r ∈ df.rows := by
        rcases List.getElem?_eq_some.mp hcell with ⟨h1, h2⟩
        exact h2 ▸ List.getElem_mem h1
      have hlen : j < r.length := by rw [hwf r hmem]; exact hj
      rw [List.getElem?_append, if_pos hlen]

/-- C9: the rows surviving null-row removal appear in the transformed
dataset positionally, in their original relative order: the output has
exactly one row per surviving input row, and at every original column
position (other than positions the timestamp stamping overwrites) the
output row holds the surviving input row's cell. -/
theorem transform_row_order (ts : String) (df : DataFrame) (hwf : WF df) :
    (transform ts df).rows.length = (df.rows.filter rowComplete).length ∧
    (∀ i j : Nat, j < df.columns.length →
      (df.columns.map pyLower)[j]? ≠ some "etl_timestamp" →
      ((transform ts df).rows[i]?.bind fun r => r[j]?) =
        ((df.rows.filter rowComplete)[i]?.bind fun r => r[j]?)) := by
  refine ⟨transform_rows_length ts df, ?_⟩
  intro i j hj hne
  have hwf2 : WF (lowercaseColumns (dropna df)) := WF_lowercaseColumns (WF_dropna hwf)
  have hj2 : j < (lowercaseColumns (dropna df)).columns.length := by
    simpa [lowercaseColumns] using hj
  have hj3 : j < (setColumn (lowercaseColumns (dropna df)) "etl_timestamp"
      (some (Value.str ts))).columns.length := by
    rw [setColumn_columns]
    split
    · exact hj2
    · simp only [List.length_append, List.length_cons, List.length_nil]
      omega
  unfold transform addTimestamp
  rw [addId_rows_getElem? (WF_setColumn _ _ hwf2) i j hj3]
  rw [setColumn_rows_getElem?_other hwf2 i j hj2 hne]
  rfl

/-- Witness for C9 at the spec's running example. -/
theorem transform_row_order_witness :
    (transform "2024-01-01 00:00:00" sampleDf).rows.length =
      (sampleDf.rows.filter rowComplete).length ∧
    (∀ i j : Nat, j < sampleDf.columns.length →
      (sampleDf.columns.map pyLower)[j]? ≠ some "etl_timestamp" →
      ((transform "2024-01-01 00:00:00" sampleDf).rows[i]?.bind fun r => r[j]?) =
        ((sampleDf.rows.filter rowComplete)[i]?.bind fun r => r[j]?)) :=
  transform_row_order "2024-01-01 00:00:00" sampleDf (by decide)

theorem read_csv_no_format_error (p : String) (fs : FS) (e : String) :
    read_csv p fs ≠ .error (.unsupportedFormat e) := by
  unfold read_csv
  cases fs.files.lookup p <;> simp

theorem read_json_no_format_error (p : String) (fs : FS) (e : String) :
    read_json p fs ≠ .error (.unsupportedFormat e) := by
  unfold read_json
  cases fs.files.lookup p <;> simp

theorem read_excel_no_format_error (p : String) (fs : FS) (e : String) :
    read_excel p fs ≠ .error (.unsupportedFormat e) := by
  unfold read_excel
  cases fs.files.lookup p <;> simp

/-- C5: `extract` raises the unsupported-format error exactly when the
lower-cased extension of the source path is none of `.csv`, `.json`,
`.xlsx`, `.xls`, and for each supported extension it delegates to the
corresponding pandas reader. -/
theorem extract_dispatch (src : String) (fs : FS) :
    ((∃ e, extract src fs = .error (.unsupportedFormat e)) ↔
      pyLower (splitext src).2 ∉ [".csv", ".json", ".xlsx", ".xls"]) ∧
    (pyLower (splitext src).2 = ".csv" → extract src fs = read_csv src fs) ∧
    (pyLower (splitext src).2 = ".json" → extract src fs = read_json src fs) ∧
    (pyLower (splitext src).2 ∈ [".xlsx", ".xls"] → extract src fs = read_excel src fs) := by
  unfold extract
  by_cases h1 : pyLower (splitext src).2 = ".csv"
  · refine ⟨?_, fun _ => by rw [if_pos h1], fun h2 => absurd h1 (by simp [h2]), ?_⟩
    · rw [if_pos h1]
      constructor
      · intro ⟨e, he⟩
        exact absurd he (read_csv_no_format_error src fs e)
      · intro hmem
        exact absurd (by simp [h1]) hmem
    · intro hmem
      rcases List.mem_cons.mp hmem with h | h
      · exact absurd h1 (by simp [h])
      · exact absurd h1 (by simp [List.mem_singleton.mp h])
  · rw [if_neg h1]
    by_cases h2 : pyLower (splitext src).2 = ".json"
    · refine ⟨?_, fun hc => absurd hc h1, fun _ => by rw [if_pos h2], ?_⟩
      · rw [if_pos h2]
        constructor
        · intro ⟨e, he⟩
          exact absurd he (read_json_no_format_error src fs e)
        · intro hmem
          exact absurd (by simp [h2]) hmem
      · intro hmem
        rcases List.mem_cons.mp hmem with h | h
        · exact absurd h2 (by simp [h])
        · exact absurd h2 (by simp [List.mem_singleton.mp h])
    · rw [if_neg h2]
      by_cases h3 : pyLower (splitext src).2 ∈ [".xlsx", ".xls"]
      · refine ⟨?_, fun hc => absurd hc h1, fun hc => absurd hc h2, fun _ => by rw [if_pos h3]⟩
        rw [if_pos h3]
        constructor
        · intro ⟨e, he⟩
          exact absurd he (read_excel_no_format_error src fs e)
        · intro hmem
          rcases List.mem_cons.mp h3 with h | h
          · exact absurd (by simp [h]) hmem
          · exact absurd (by simp [List.mem_singleton.mp h]) hmem
      · rw [if_neg h3]
        refine ⟨?_, fun hc => absurd hc h1, fun hc => absurd hc h2, fun hc => absurd hc h3⟩
        constructor
        · intro _ hmem
          rcases List.mem_cons.mp hmem with h | hmem2
          · exact h1 h
          rcases List.mem_cons.mp hmem2 with h | hmem3
          · exact h2 h
          · exact h3 hmem3
        · intro _
          exact ⟨pyLower (splitext src).2, rfl⟩

/-- A one-table file system used by the witnesses. -/
def sampleFS : FS := ⟨[("s.csv", sampleDf)], []⟩

/-- Witness for C5: an unsupported `.txt` source, and one source per
supported extension (upper-case variants included). -/
theorem extract_dispatch_witness :
    ((∃ e, extract "my.TXT" sampleFS = .error (.unsupportedFormat e)) ∧
      extract "a.CSV" sampleFS = read_csv "a.CSV" sampleFS) ∧
    (extract "b.json" sampleFS = read_json "b.json" sampleFS ∧
      extract "c.XLSX" sampleFS = read_excel "c.XLSX" sampleFS) :=
  ⟨⟨(extract_dispatch "my.TXT" sampleFS).1.mpr (by decide),
    (extract_dispatch "a.CSV" sampleFS).2.1 (by decide)⟩,
   ⟨(extract_dispatch "b.json" sampleFS).2.2.1 (by decide),
    (extract_dispatch "c.XLSX" sampleFS).2.2.2 (by decide)⟩⟩

theorem run_extract_error {src dst cwd ts : String} {fs : FS} {e : PError}
    (he : extract src fs = .error e) : run src dst cwd ts fs = (false, fs) := by
  unfold run
  rw [he]

theorem run_load_ok {src dst cwd ts : String} {fs fs1 : FS} {d : DataFrame} {b : Bool}
    (hd : extract src fs = .ok d) (hl : load (transform ts d) dst cwd fs = (.ok b, fs1)) :
    run src dst cwd ts fs = (true, fs1) := by
  unfold run
  rw [hd]
  show (match load (transform ts d) dst cwd fs with
        | (.ok _, fs2) => (true, fs2)
        | (.error _, fs2) => (false, fs2)) = (true, fs1)
  rw [hl]

theorem run_load_error {src dst cwd ts : String} {fs fs1 : FS} {d : DataFrame} {e : PError}
    (hd : extract src fs = .ok d) (hl : load (transform ts d) dst cwd fs = (.error e, fs1)) :
    run src dst cwd ts fs = (false, fs1) := by
  unfold run
  rw [hd]
  show (match load (transform ts d) dst cwd fs with
        | (.ok _, fs2) => (true, fs2)
        | (.error _, fs2) => (false, fs2)) = (false, fs1)
  rw [hl]

/-- C6: `run` performs extract, then transform on extract's result, then
load on transform's result, short-circuiting on the first failure; it
returns `true` exactly when all steps succeed, and converts any step's
failure into `false` instead of propagating it. -/
theorem run_sequence (src dst cwd ts : String) (fs : FS) :
    ((run src dst cwd ts fs).1 = true ↔
      ∃ d, extract src fs = .ok d ∧
        ∃ b fs1, load (transform ts d) dst cwd fs = (.ok b, fs1)) ∧
    (∀ e, extract src fs = .error e → run src dst cwd ts fs = (false, fs)) ∧
    (∀ d b fs1, extract src fs = .ok d →
      load (transform ts d) dst cwd fs = (.ok b, fs1) →
      run src dst cwd ts fs = (true, fs1)) ∧
    (∀ d e fs1, extract src fs = .ok d →
      load (transform ts d) dst cwd fs = (.error e, fs1) →
      run src dst cwd ts fs = (false, fs1)) := by
  refine ⟨?_, fun e he => run_extract_error he,
    fun d b fs1 hd hl => run_load_ok hd hl,
    fun d e fs1 hd hl => run_load_error hd hl⟩
  constructor
  · intro h
    cases hex : extract src fs with
    | error e =>
      rw [run_extract_error hex] at h
      cases h
    | ok d =>
      cases hld : load (transform ts d) dst cwd fs with
      | mk exc fs1 =>
        cases exc with
        | ok b => exact ⟨d, rfl, b, fs1, hld⟩
        | error e =>
          rw [run_load_error hex hld] at h
          cases h
  · rintro ⟨d, hd, b, fs1, hl⟩
    rw [run_load_ok hd hl]

/-- Witness for C6: a successful end-to-end run on the sample file system,
and the short-circuit on a missing source. -/
theorem run_sequence_witness :
    run "s.csv" "o.json" "/cwd" "T" sampleFS =
      (true, (load (transform "T" sampleDf) "o.json" "/cwd" sampleFS).2) ∧
    run "missing.csv" "o.json" "/cwd" "T" sampleFS = (false, sampleFS) :=
  ⟨(run_sequence "s.csv" "o.json" "/cwd" "T" sampleFS).2.2.1 sampleDf true
      (load (transform "T" sampleDf) "o.json" "/cwd" sampleFS).2 (by decide) (by decide),
   (run_sequence "missing.csv" "o.json" "/cwd" "T" sampleFS).2.1 .extractionErr (by decide)⟩

theorem extract_missing {src : String} {fs : FS} (h : fs.files.lookup src = none) :
    ∃ e, extract src fs = .error e := by
  unfold extract read_csv read_json read_excel
  by_cases h1 : pyLower (splitext src).2 = ".csv"
  · rw [if_pos h1, h]
    exact ⟨_, rfl⟩
  · rw [if_neg h1]
    by_cases h2 : pyLower (splitext src).2 = ".json"
    · rw [if_pos h2, h]
      exact ⟨_, rfl⟩
    · rw [if_neg h2]
      by_cases h3 : pyLower (splitext src).2 ∈ [".xlsx", ".xls"]
      · rw [if_pos h3, h]
        exact ⟨_, rfl⟩
      · rw [if_neg h3]
        exact ⟨_, rfl⟩

/-- C7: when the source path has no file behind it, `run` returns false and
leaves the file system untouched — in particular nothing is written at the
destination path. -/
theorem run_missing_source (src dst cwd ts : String) (fs : FS)
    (h : fs.files.lookup src = none) :
    run src dst cwd ts fs = (false, fs) ∧
    ((run src dst cwd ts fs).2).files.lookup dst = fs.files.lookup dst := by
  rcases extract_missing h with ⟨e, he⟩
  constructor
  · exact run_extract_error he
  · rw [run_extract_error he]

/-- Witness for C7. -/
theorem run_missing_source_witness :
    run "missing.csv" "out/r.json" "/cwd" "T" sampleFS = (false, sampleFS) ∧
    ((run "missing.csv" "out/r.json" "/cwd" "T" sampleFS).2).files.lookup "out/r.json" =
      sampleFS.files.lookup "out/r.json" :=
  run_missing_source "missing.csv" "out/r.json" "/cwd" "T" sampleFS (by decide)

/-- C8: `load` on a destination whose lower-cased extension is unsupported
fails with the unsupported-format error and writes no file: the recorded
tabular files are exactly those of the starting state. -/
theorem load_unsupported_dest (df : DataFrame) (dst cwd : String) (fs : FS)
    (h : pyLower (splitext dst).2 ∉ [".csv", ".json", ".xlsx", ".xls"]) :
    (load df dst cwd fs).1 = .error (.unsupportedFormat (pyLower (splitext dst).2)) ∧
    ((load df dst cwd fs).2).files = fs.files := by
  have h1 : ¬ pyLower (splitext dst).2 = ".csv" := fun hc => h (by rw [hc]; decide)
  have h2 : ¬ pyLower (splitext dst).2 = ".json" := fun hc => h (by rw [hc]; decide)
  have h3 : pyLower (splitext dst).2 ∉ [".xlsx", ".xls"] := by
    intro hc
    rcases List.mem_cons.mp hc with h4 | h4
    · exact h (by rw [h4]; decide)
    · exact h (by rw [List.mem_singleton.mp h4]; decide)
  unfold load
  rw [if_neg h1, if_neg h2, if_neg h3]
  exact ⟨rfl, rfl⟩

/-- Witness for C8: a `.txt` destination. -/
theorem load_unsupported_dest_witness :
    (load sampleDf "out/res.txt" "/cwd" sampleFS).1 =
      .error (.unsupportedFormat (pyLower (splitext "out/res.txt").2)) ∧
    ((load sampleDf "out/res.txt" "/cwd" sampleFS).2).files = sampleFS.files :=
  load_unsupported_dest sampleDf "out/res.txt" "/cwd" sampleFS (by decide)

/-- C10: `load` runs `os.makedirs` on the destination's parent before
validating the destination extension, so the parent directory and all its
ancestors exist in the resulting state even when `load` fails with the
unsupported-format error. -/
theorem load_mkdirs_before_validation (df : DataFrame) (dst cwd : String) (fs : FS)
    (h : pyLower (splitext dst).2 ∉ [".csv", ".json", ".xlsx", ".xls"]) :
    (load df dst cwd fs).1 = .error (.unsupportedFormat (pyLower (splitext dst).2)) ∧
    ∀ p ∈ ancestors (dirname (abspath cwd dst)), p ∈ ((load df dst cwd fs).2).dirs := by
  have h1 : ¬ pyLower (splitext dst).2 = ".csv" := fun hc => h (by rw [hc]; decide)
  have h2 : ¬ pyLower (splitext dst).2 = ".json" := fun hc => h (by rw [hc]; decide)
  have h3 : pyLower (splitext dst).2 ∉ [".xlsx", ".xls"] := by
    intro hc
    rcases List.mem_cons.mp hc with h4 | h4
    · exact h (by rw [h4]; decide)
    · exact h (by rw [List.mem_singleton.mp h4]; decide)
  unfold load
  rw [if_neg h1, if_neg h2, if_neg h3]
  refine ⟨rfl, fun p hp => ?_⟩
  show p ∈ makedirs (dirname (abspath cwd dst)) fs.dirs
  unfold makedirs
  exact List.mem_append_left _ hp

/-- Witness for C10: an unsupported destination under a nested directory;
the nested parent and its ancestors are present afterwards. -/
theorem load_mkdirs_before_validation_witness :
    (load sampleDf "out/nested/res.txt" "/cwd" sampleFS).1 =
      .error (.unsupportedFormat (pyLower (splitext "out/nested/res.txt").2)) ∧
    ∀ p ∈ ancestors (dirname (abspath "/cwd" "out/nested/res.txt")),
      p ∈ ((load sampleDf "out/nested/res.txt" "/cwd" sampleFS).2).dirs :=
  load_mkdirs_before_validation sampleDf "out/nested/res.txt" "/cwd" sampleFS (by decide)

end ETL
